import Mathlib

set_option maxHeartbeats 1000000

/-!
Verification development for the calendar-monitor aggregation engine
(`src/calendar.rs`, `src/meeting.rs`, `src/main.rs`).

Shallow embedding conventions:
* A UTC instant (`DateTime<Utc>` in the source) is an `Int`: whole seconds
  since 1970-01-01T00:00:00 UTC.  A calendar date (`NaiveDate`) is an `Int`:
  whole days since 1970-01-01.
* Strings are Lean `String`s, scanned as their character lists; the source's
  byte indices coincide with character indices on the ASCII property values
  these functions receive.
* `Result<T>` in the source becomes `Except Unit T`; the error payload is
  irrelevant to the verified properties.
* Functions that read `Utc::now()` or `SystemTime::now()` internally take
  the corresponding `now` / `today` as explicit parameters.
* The mutable cache fields of `CalendarService` become explicit state:
  `get_meetings_for_today_and_tomorrow` returns the meeting list together
  with the updated service state.
-/

namespace CalendarMonitor

/-- `DateTime::date_naive`: the calendar day an instant falls on. -/
def dateOf (t : Int) : Int := t.fdiv 86400

/-- `DateTime::time`: seconds since midnight of the instant's day. -/
def timeOfDay (t : Int) : Int := t.emod 86400

/-- `NaiveDate::weekday`, encoded 0 = Monday … 6 = Sunday.
1970-01-01 (day 0) was a Thursday (= 3). -/
def weekdayOf (d : Int) : Nat := ((d + 3).emod 7).toNat

/-- Proleptic-Gregorian civil date to days since 1970-01-01
(the arithmetic chrono's `NaiveDate` is built on); valid for negative
(astronomically numbered) years as well. -/
def daysFromCivil (y : Int) (m d : Nat) : Int :=
  let yy : Int := if m ≤ 2 then y - 1 else y
  let era : Int := yy.fdiv 400
  let yoe : Int := yy - era * 400
  let mp : Int := ((m : Int) + 9) % 12
  let doy : Int := (153 * mp + 2).fdiv 5 + (d : Int) - 1
  let doe : Int := yoe * 365 + yoe.fdiv 4 - yoe.fdiv 100 + doy
  era * 146097 + doe - 719468

/-- chrono's proleptic-Gregorian leap-year rule (bit tests in the source,
equivalent to Euclidean divisibility). -/
def isLeapYear (y : Int) : Bool :=
  y.emod 4 == 0 && (y.emod 100 != 0 || y.emod 400 == 0)

def daysInMonth (y : Int) (m : Nat) : Nat :=
  if m == 2 then (if isLeapYear y then 29 else 28)
  else if m == 4 || m == 6 || m == 9 || m == 11 then 30
  else 31

/-- The year/month/day combinations chrono's `NaiveDate::from_ymd_opt`
accepts: year within `MIN_YEAR = -262144 .. MAX_YEAR = 262143`
(`i32::MIN >> 13 .. i32::MAX >> 13`), month 1-12, day within the month. -/
def validYmd (y : Int) (m d : Nat) : Bool :=
  decide (-262144 ≤ y ∧ y ≤ 262143) && decide (1 ≤ m ∧ m ≤ 12) &&
    decide (1 ≤ d ∧ d ≤ daysInMonth y m)

/-! ### Data model (`src/meeting.rs`) -/

inductive ResponseStatus where
  | Accepted
  | Declined
  | Tentative
  | NoResponse
deriving DecidableEq, Repr

inductive MeetingStatus where
  | Upcoming
  | InProgress
  | Ended
deriving DecidableEq, Repr

structure Meeting where
  title : String
  start_time : Int
  end_time : Int
  description : Option String := none
  location : Option String := none
  attendees : List String := []
  response_status : Option ResponseStatus := none
deriving DecidableEq, Repr

def Meeting.new (title : String) (start_time end_time : Int) : Meeting :=
  { title, start_time, end_time }

def Meeting.with_description (m : Meeting) (d : String) : Meeting :=
  { m with description := some d }

def Meeting.with_location (m : Meeting) (l : String) : Meeting :=
  { m with location := some l }

/-- `Meeting::status`, with the source's `Utc::now()` made an explicit argument. -/
def Meeting.status (m : Meeting) (now : Int) : MeetingStatus :=
  if now < m.start_time then .Upcoming
  else if now ≥ m.start_time ∧ now ≤ m.end_time then .InProgress
  else .Ended

/-- `Meeting::is_active`. -/
def Meeting.is_active (m : Meeting) (now : Int) : Bool :=
  m.status now == .InProgress

/-- `Meeting::is_upcoming`. -/
def Meeting.is_upcoming (m : Meeting) (now : Int) : Bool :=
  m.status now == .Upcoming

/-- `Meeting::has_ended`. -/
def Meeting.has_ended (m : Meeting) (now : Int) : Bool :=
  m.status now == .Ended

/-- `Meeting::is_time_block`: title starts with `[` and ends with `]`. -/
def Meeting.is_time_block (m : Meeting) : Bool :=
  m.title.data.head? == some '[' && m.title.data.getLast? == some ']'

/-! ### String scanning helpers (for `str::find` / `contains` / slicing) -/

/-- Index of the first occurrence of `pat` as a contiguous sublist
(`str::find` on ASCII data). -/
def findSublistIdx (pat : List Char) : List Char → Option Nat
  | [] => if pat.isEmpty then some 0 else none
  | c :: rest =>
    if pat.isPrefixOf (c :: rest) then some 0
    else (findSublistIdx pat rest).map (· + 1)

/-- `str::contains` for a literal pattern. -/
def containsSub (pat l : List Char) : Bool :=
  (findSublistIdx pat l).isSome

/-- Slice up to (excluding) the first `;`, or to the end
(`s[..s.find(';').unwrap_or(len)]`). -/
def takeUntilSemi (cs : List Char) : List Char :=
  cs.takeWhile (fun c => c ≠ ';')

/-! ### DateTimeNormalizer (`parse_ical_datetime` and `parse_rrule_until`)

chrono's `parse_from_str` is modelled field by field.  For a numeric
specifier it first trims leading Unicode whitespace, then consumes a greedy
run of 1 up to max-width ASCII digits (`%m`/`%d`/`%H`/`%M`/`%S`: width 2;
unsigned `%Y`: width 4; `%Y` with an explicit `+`/`-` sign: unbounded, with
i64 overflow an error).  Literal characters (`T`, `Z`) must match exactly,
the whole input must be consumed, and the collected fields must form a
valid calendar date (year within `NaiveDate`'s range) and a valid time
(hour < 24, minute < 60, second ≤ 60 — chrono folds the leap second 60
into second 59 for timestamp purposes). -/

/-- Rust `char::is_whitespace`: the Unicode White_Space code points. -/
def rustIsWhitespace (c : Char) : Bool :=
  [0x9, 0xA, 0xB, 0xC, 0xD, 0x20, 0x85, 0xA0, 0x1680,
   0x2000, 0x2001, 0x2002, 0x2003, 0x2004, 0x2005, 0x2006, 0x2007,
   0x2008, 0x2009, 0x200A, 0x2028, 0x2029, 0x202F, 0x205F, 0x3000].contains c.toNat

def i64Max : Nat := 9223372036854775807

/-- chrono `scan::number(s, 1, max)`: a greedy run of at most `max` ASCII
digits, at least one, failing on i64 overflow; returns the value and the
unconsumed rest. -/
def scanNumber (max : Nat) (cs : List Char) : Option (Nat × List Char) :=
  let ds := (cs.take max).takeWhile Char.isDigit
  if ds.isEmpty then none
  else
    let v := ds.foldl (fun acc c => acc * 10 + (c.toNat - '0'.toNat)) 0
    if v ≤ i64Max then some (v, cs.drop ds.length) else none

/-- chrono `scan::number(s, 1, usize::MAX)`: as `scanNumber` with no width
limit (used for an explicitly signed year). -/
def scanNumberAll (cs : List Char) : Option (Nat × List Char) :=
  let ds := cs.takeWhile Char.isDigit
  if ds.isEmpty then none
  else
    let v := ds.foldl (fun acc c => acc * 10 + (c.toNat - '0'.toNat)) 0
    if v ≤ i64Max then some (v, cs.drop ds.length) else none

/-- One `%Y` item: trim whitespace; a `-`/`+` sign switches to an unbounded
digit run, otherwise at most four digits are consumed. -/
def parseYearField (cs0 : List Char) : Option (Int × List Char) :=
  let cs := cs0.dropWhile rustIsWhitespace
  match cs with
  | '-' :: rest =>
    match scanNumberAll rest with
    | some (v, r) => some (-(v : Int), r)
    | none => none
  | '+' :: rest =>
    match scanNumberAll rest with
    | some (v, r) => some ((v : Int), r)
    | none => none
  | _ =>
    match scanNumber 4 cs with
    | some (v, r) => some ((v : Int), r)
    | none => none

/-- One width-2 numeric item (`%m`, `%d`, `%H`, `%M`, `%S`):
trim whitespace, then one or two digits. -/
def parseNumField2 (cs : List Char) : Option (Nat × List Char) :=
  scanNumber 2 (cs.dropWhile rustIsWhitespace)

/-- One literal item: the exact character, no trimming. -/
def parseLit (c : Char) : List Char → Option (List Char)
  | c' :: rest => if c' = c then some rest else none
  | [] => none

/-- The `%Y%m%d` item sequence, returning the fields and the rest. -/
def parseYmd (cs : List Char) : Option (Int × Nat × Nat × List Char) := do
  let (y, cs1) ← parseYearField cs
  let (mo, cs2) ← parseNumField2 cs1
  let (d, cs3) ← parseNumField2 cs2
  some (y, mo, d, cs3)

/-- The `%H%M%S` item sequence, returning the fields and the rest. -/
def parseHms (cs : List Char) : Option (Nat × Nat × Nat × List Char) := do
  let (h, cs1) ← parseNumField2 cs
  let (mi, cs2) ← parseNumField2 cs1
  let (s, cs3) ← parseNumField2 cs2
  some (h, mi, s, cs3)

/-- chrono's time validation: hour < 24, minute < 60, second ≤ 60
(60 is the leap second). -/
def validHms (h mi s : Nat) : Bool :=
  decide (h < 24) && decide (mi < 60) && decide (s ≤ 60)

/-- Seconds since midnight; chrono stores the leap second 60 as second 59
with an extra-nanosecond flag, so its timestamp equals that of second 59. -/
def secondsOfDay (h mi s : Nat) : Int :=
  (h : Int) * 3600 + (mi : Int) * 60 + (if s == 60 then 59 else (s : Int))

/-- chrono `NaiveDate::parse_from_str(s, "%Y%m%d")`: the three date items,
nothing left over, a valid date.  Returns the day number. -/
def parseDateOnly (cs : List Char) : Option Int :=
  match parseYmd cs with
  | some (y, m, d, rest) =>
    if rest.isEmpty && validYmd y m d then some (daysFromCivil y m d) else none
  | none => none

/-- chrono `NaiveDateTime::parse_from_str` with `"%Y%m%dT%H%M%S"`
(`withZ = false`) or `"%Y%m%dT%H%M%SZ"` (`withZ = true`): date items,
literal `T`, time items, optional literal `Z`, nothing left over, valid
date and time.  Returns the naive timestamp in seconds since the epoch. -/
def parseDateTimeFmt (withZ : Bool) (cs : List Char) : Option Int :=
  match parseYmd cs with
  | some (y, m, d, rest) =>
    match parseLit 'T' rest with
    | some rest2 =>
      match parseHms rest2 with
      | some (h, mi, s, rest3) =>
        match (if withZ then parseLit 'Z' rest3 else some rest3) with
        | some rest4 =>
          if rest4.isEmpty && validYmd y m d && validHms h mi s then
            some (daysFromCivil y m d * 86400 + secondsOfDay h mi s)
          else none
        | none => none
      | none => none
    | none => none
  | none => none

/-- `CalendarService::parse_ical_datetime`.
* A string ending in `Z` must match `%Y%m%dT%H%M%SZ`; on failure the source
  returns `Err` (propagated by `?`), embedded as `Except.error`.
* Otherwise `%Y%m%dT%H%M%S` is treated as floating local time in the fixed
  UTC+3 offset (three hours are subtracted; the source's `NaiveDateTime`
  subtraction would panic, not error, within three hours of chrono's
  minimum datetime — that corner is outside this model).
* Otherwise `%Y%m%d` is midnight UTC of that date.
* Anything else is `Ok(None)`. -/
def parseIcalDatetime (s : String) : Except Unit (Option Int) :=
  let cs := s.data
  if cs.getLast? == some 'Z' then
    match parseDateTimeFmt true cs with
    | some t => .ok (some t)
    | none => .error ()
  else
    match parseDateTimeFmt false cs with
    | some t => .ok (some (t - 10800))
    | none =>
      match parseDateOnly cs with
      | some d => .ok (some (d * 86400))
      | none => .ok none

/-- UTF-8 length of a character, for the source's byte-indexed slicing. -/
def charUtf8Len (c : Char) : Nat :=
  if c.toNat < 0x80 then 1
  else if c.toNat < 0x800 then 2
  else if c.toNat < 0x10000 then 3
  else 4

/-- Rust `str::get(0..n)`: the prefix of exactly `n` bytes, provided `n`
falls on a character boundary and the string is at least `n` bytes long. -/
def takeBytes : Nat → List Char → Option (List Char)
  | 0, _ => some []
  | _ + 1, [] => none
  | n + 1, c :: rest =>
    let l := charUtf8Len c
    if l ≤ n + 1 then (takeBytes (n + 1 - l) rest).map (fun ds => c :: ds)
    else none

/-- `CalendarService::parse_rrule_until`: locate `UNTIL=`, slice to the next
`;`, take the first eight bytes (`get(0..8)`), parse them with `%Y%m%d`. -/
def parseRruleUntil (rrule : String) : Option Int :=
  match findSublistIdx "UNTIL=".data rrule.data with
  | none => none
  | some i =>
    let untilStr := takeUntilSemi (rrule.data.drop (i + 6))
    match takeBytes 8 untilStr with
    | some datePart => parseDateOnly datePart
    | none => none

/-! ### RecurrenceExpander (`expand_recurring_event` and helpers) -/

/-- The two-letter code `should_occur_on_day` assigns to each weekday. -/
def weekdayCode (w : Nat) : List Char :=
  match w with
  | 0 => ['M', 'O']
  | 1 => ['T', 'U']
  | 2 => ['W', 'E']
  | 3 => ['T', 'H']
  | 4 => ['F', 'R']
  | 5 => ['S', 'A']
  | _ => ['S', 'U']

/-- `CalendarService::should_occur_on_day`: when a `BYDAY=` clause exists its
slice (up to `;`) must contain the date's weekday code as a substring;
otherwise the date must fall on the anchor's weekday. -/
def shouldOccurOnDay (rrule : String) (date : Int) (originalWeekday : Nat) : Bool :=
  let w := weekdayOf date
  match findSublistIdx "BYDAY=".data rrule.data with
  | some i => containsSub (weekdayCode w) (takeUntilSemi (rrule.data.drop (i + 6)))
  | none => w == originalWeekday

/-- `CalendarService::adjust_time_to_date`: same time-of-day on the target date. -/
def adjustTimeToDate (t : Int) (target : Int) : Int :=
  target * 86400 + timeOfDay t

/-- The occurrence `expand_recurring_event` builds for one matching date:
both endpoints re-anchored on the target date, and the end pushed one day
later when the anchor's start and end fall on different dates. -/
def reprojectOccurrence (s e : Int) (target : Int) : Int × Int :=
  let s' := adjustTimeToDate s target
  let e' := adjustTimeToDate e target
  (s', if dateOf s ≠ dateOf e then e' + 86400 else e')

def mkOccurrence (title : String) (se : Int × Int)
    (desc loc : Option String) : Meeting :=
  let m := Meeting.new title se.1 se.2
  let m := match desc with
    | some d => m.with_description d
    | none => m
  match loc with
  | some l => m.with_location l
  | none => m

/-- `CalendarService::expand_recurring_event`, with the source's
`Utc::now().date_naive()` passed as `today`. -/
def expandRecurringEvent (title : String) (s e : Int) (rrule : String)
    (today : Int) (desc loc : Option String) : List Meeting :=
  let tomorrow := today + 1
  if containsSub "FREQ=WEEKLY".data rrule.data then
    let pastUntil : Bool :=
      match parseRruleUntil rrule with
      | some u => decide (today > u) || decide (tomorrow > u)
      | none => false
    if pastUntil then []
    else
      let originalWeekday := weekdayOf (dateOf s)
      let todayOcc :=
        if shouldOccurOnDay rrule today originalWeekday then
          [mkOccurrence title (reprojectOccurrence s e today) desc loc]
        else []
      let tomorrowOcc :=
        if shouldOccurOnDay rrule tomorrow originalWeekday then
          [mkOccurrence title (reprojectOccurrence s e tomorrow) desc loc]
        else []
      todayOcc ++ tomorrowOcc
  else []

/-! ### EventParser (`convert_ical_event_to_meeting`) -/

structure IcalProperty where
  name : String
  value : Option String
deriving DecidableEq, Repr

structure EventFields where
  title : String := "Untitled Event"
  start_time : Option Int := none
  end_time : Option Int := none
  description : Option String := none
  location : Option String := none
  rrule : Option String := none
deriving Repr

/-- One arm of the property loop in `convert_ical_event_to_meeting`.
`DTSTART`/`DTEND` parse failures (`Err` from `parse_ical_datetime`)
propagate; `Ok(None)` leaves the field unset. -/
def applyProperty (f : EventFields) (p : IcalProperty) : Except Unit EventFields :=
  match p.name, p.value with
  | "SUMMARY", some v => .ok { f with title := v }
  | "DTSTART", some v => do
    let t ← parseIcalDatetime v
    .ok { f with start_time := t }
  | "DTEND", some v => do
    let t ← parseIcalDatetime v
    .ok { f with end_time := t }
  | "RRULE", some v => .ok { f with rrule := some v }
  | "DESCRIPTION", some v => .ok { f with description := some v }
  | "LOCATION", some v => .ok { f with location := some v }
  | _, _ => .ok f

/-- `CalendarService::convert_ical_event_to_meeting`: fold the properties,
then require both endpoints; expand a recurring event, otherwise build the
single meeting; missing endpoints yield the empty list (a skip, not an error). -/
def convertIcalEventToMeeting (props : List IcalProperty) (today : Int) :
    Except Unit (List Meeting) := do
  let f ← props.foldlM applyProperty {}
  match f.start_time, f.end_time with
  | some s, some e =>
    match f.rrule with
    | some r => .ok (expandRecurringEvent f.title s e r today f.description f.location)
    | none =>
      let m := Meeting.new f.title s e
      let m := match f.description with
        | some d => m.with_description d
        | none => m
      let m := match f.location with
        | some l => m.with_location l
        | none => m
      .ok [m]
  | _, _ => .ok []

/-! ### SourceFetcher / feed parse / AggregationCache (`calendar.rs`) -/

def meetingLe (a b : Meeting) : Bool :=
  decide (a.start_time ≤ b.start_time)

/-- `Vec::sort_by(|a, b| a.start_time.cmp(&b.start_time))`: a stable sort
ascending by start time. -/
def sortByStart (l : List Meeting) : List Meeting :=
  l.mergeSort meetingLe

/-- `CalendarService::parse_ics_file_extended` after fetching: convert every
event (a conversion error aborts this source), keep meetings whose start
date is today or tomorrow, sort by start time. -/
def parseIcsFileExtended (events : List (List IcalProperty)) (today : Int) :
    Except Unit (List Meeting) := do
  let mss ← events.mapM (fun ev => convertIcalEventToMeeting ev today)
  let ms := mss.flatten.filter
    (fun m => dateOf m.start_time == today || dateOf m.start_time == today + 1)
  .ok (sortByStart ms)

/-- One configured ICS source: `Except.error` stands for a fetch failure
(missing file / HTTP error), `Except.ok` for the fetched feed's events. -/
abbrev IcsSource := Except Unit (List (List IcalProperty))

/-- `CalendarService::parse_multiple_ics_files_extended`: per-source failures
are logged and skipped, the surviving meetings concatenated in source order
and sorted by start time.  (Despite the in-source comment, no deduplication
happens on this path.) -/
def parseMultipleIcsFilesExtended (sources : List IcsSource) (today : Int) :
    List Meeting :=
  let all := sources.foldl
    (fun acc src =>
      match src >>= (fun evs => parseIcsFileExtended evs today) with
      | .ok ms => acc ++ ms
      | .error _ => acc)
    []
  sortByStart all

/-- The nested duplicate-removal loop of `parse_multiple_ics_files` — dead
code on the refresh path, embedded to document what it would compute.
`i`/`j` are the outer/inner cursors; the fuel only bounds the recursion and
is chosen large enough for every reachable state. -/
def dedupGo (fuel : Nat) (l : List Meeting) (i j : Nat) : List Meeting :=
  match fuel with
  | 0 => l
  | fuel + 1 =>
    if i < l.length then
      if j < l.length then
        match l[i]?, l[j]? with
        | some a, some b =>
          if a.title = b.title ∧ a.start_time = b.start_time then
            if a.end_time < b.end_time then
              let l' := l.eraseIdx i
              if l'.length ≤ j then dedupGo fuel l' (i + 1) (i + 2)
              else dedupGo fuel l' i (i + 1)
            else dedupGo fuel (l.eraseIdx j) i j
          else dedupGo fuel l i (j + 1)
        | _, _ => l
      else dedupGo fuel l (i + 1) (i + 2)
    else l

/-- The duplicate elimination of `parse_multiple_ics_files` (never invoked
by `get_meetings_for_today_and_tomorrow`, which uses the `_extended` path). -/
def dedupMeetings (l : List Meeting) : List Meeting :=
  dedupGo (l.length * l.length + 2 * l.length + 2) l 0 1

/-- The mutable state of `CalendarService`. -/
structure CalendarService where
  ics_sources : List IcsSource
  cached_meetings : Option (List Meeting) := none
  last_fetch_time : Option Int := none
  cache_duration_secs : Int := 300
deriving Repr

/-- The cache-validity test in `get_meetings_for_today_and_tomorrow`:
a recorded fetch, not in the future (`duration_since` fails otherwise,
defaulting to invalid), younger than the TTL. -/
def cacheValid (svc : CalendarService) (now : Int) : Bool :=
  match svc.last_fetch_time with
  | some t => if t ≤ now then decide (now - t < svc.cache_duration_secs) else false
  | none => false

/-- First mock meeting: started 5 minutes ago, ends in 25 minutes. -/
def mockStandup (now : Int) : Meeting :=
  ((Meeting.new "Daily Standup" (now - 5 * 60) (now + 25 * 60)).with_description
    "Daily team sync meeting").with_location "Conference Room A"

/-- Second mock meeting: starts in 30 minutes, lasts one hour. -/
def mockReview (now : Int) : Meeting :=
  ((Meeting.new "Project Review" (now + 30 * 60) (now + 90 * 60)).with_description
    "Quarterly project review with stakeholders").with_location "Main Conference Room"

/-- Third mock meeting: starts in 3 hours, ends in 4. -/
def mockCall (now : Int) : Meeting :=
  ((Meeting.new "Client Call" (now + 3 * 3600) (now + 4 * 3600)).with_description
    "Weekly check-in with client").with_location "Zoom"

/-- `CalendarService::get_mock_meetings`. -/
def getMockMeetings (now : Int) : List Meeting :=
  sortByStart [mockStandup now, mockReview now, mockCall now]

/-- `CalendarService::get_meetings_for_today_and_tomorrow`: with configured
sources, serve the cached snapshot while valid, otherwise refresh and store
the new snapshot (even when empty) with `fetched_at = now`; with no sources,
fall back to mock data without touching the cache. -/
def getMeetingsForTodayAndTomorrow (svc : CalendarService) (now : Int)
    (today : Int) : List Meeting × CalendarService :=
  if !svc.ics_sources.isEmpty then
    match (if cacheValid svc now then svc.cached_meetings else none) with
    | some ms => (ms, svc)
    | none =>
      let fresh := parseMultipleIcsFilesExtended svc.ics_sources today
      (fresh, { svc with cached_meetings := some fresh, last_fetch_time := some now })
  else (getMockMeetings now, svc)

/-! ### MeetingQueryEngine (`get_current_and_next_meetings`,
`get_active_time_blocks`) -/

/-- The query core of `CalendarService::get_current_and_next_meetings`,
applied to the meeting list the cache handed back. -/
def getCurrentAndNextMeetings (meetings : List Meeting) (now : Int) :
    Option Meeting × Option Meeting :=
  let regular := meetings.filter (fun m => !m.is_time_block)
  (regular.find? (fun m => m.is_active now),
   regular.find? (fun m => m.is_upcoming now))

/-- The query core of `CalendarService::get_active_time_blocks`. -/
def getActiveTimeBlocks (meetings : List Meeting) (now : Int) : List Meeting :=
  meetings.filter (fun m => m.is_time_block && m.is_active now)

/-! ### SourceMerger (`handle_socket` / `get_meetings` in `main.rs`) -/

/-- One slot of the merge in `handle_socket`/`get_meetings`: the external
candidate replaces the local value when it exists and the local slot is
empty or starts strictly later. -/
def replaceIfEarlier (ext cur : Option Meeting) : Option Meeting :=
  match ext, cur with
  | some g, none => some g
  | some g, some c => if g.start_time < c.start_time then some g else some c
  | none, c => c

/-- The merge step in `handle_socket` / `get_meetings`: skipped entirely for
an empty external list, otherwise each slot is reconciled against the first
active / first upcoming external meeting. -/
def mergeCurrentNext (cur next : Option Meeting) (google : List Meeting)
    (now : Int) : Option Meeting × Option Meeting :=
  if google.isEmpty then (cur, next)
  else
    let googleCurrent := google.find? (fun m => m.is_active now)
    let googleNext := google.find? (fun m => m.is_upcoming now)
    (replaceIfEarlier googleCurrent cur, replaceIfEarlier googleNext next)

/-- The merge rule as the spec words it (SourceMerger): the external
candidate wins exactly when it exists and the local slot is empty or the
candidate starts strictly earlier; on equal starts the local value stays. -/
def extBeatsLocal (ext cur : Option Meeting) : Bool :=
  ext.isSome && (cur.isNone ||
    (match ext, cur with
     | some g, some c => decide (g.start_time < c.start_time)
     | _, _ => false))

def mergeSlotSpec (ext cur : Option Meeting) : Option Meeting :=
  if extBeatsLocal ext cur then ext else cur

/-! ### Concrete inputs used by witnesses and counterexamples -/

/-- A feed event titled `Standup`, 2024-01-15 10:00Z, with a chosen `DTEND`. -/
def standupEvent (dtend : String) : List IcalProperty :=
  [⟨"SUMMARY", some "Standup"⟩, ⟨"DTSTART", some "20240115T100000Z"⟩,
   ⟨"DTEND", some dtend⟩]

/-- A bracket-titled time block. -/
def focusBlock : Meeting := Meeting.new "[Focus]" 0 10

/-- Service with one (empty) configured source and a warm cache from t = 1000. -/
def svcWarm : CalendarService :=
  { ics_sources := [Except.ok []]
    cached_meetings := some [Meeting.new "M" 0 10]
    last_fetch_time := some 1000 }

/-- Service with no configured sources. -/
def svcNoSources : CalendarService := { ics_sources := [] }

/-! ## Theorems -/

/-- The day of an instant, in the `/` form `omega` understands. -/
lemma dateOf_eq_ediv (t : Int) : dateOf t = t / 86400 :=
  Int.fdiv_eq_ediv t (by norm_num)

/-- The time-of-day of an instant, in the `%` form `omega` understands. -/
lemma timeOfDay_eq (t : Int) : timeOfDay t = t % 86400 := rfl

lemma status_eq_inProgress_of (m : Meeting) (now : Int)
    (h1 : m.start_time ≤ now) (h2 : now ≤ m.end_time) :
    m.status now = .InProgress := by
  unfold Meeting.status
  have hn : ¬ now < m.start_time := by omega
  have hp : now ≥ m.start_time ∧ now ≤ m.end_time := ⟨by omega, h2⟩
  rw [if_neg hn, if_pos hp]

lemma status_eq_upcoming_of (m : Meeting) (now : Int)
    (h : now < m.start_time) : m.status now = .Upcoming := by
  unfold Meeting.status
  rw [if_pos h]

lemma replaceIfEarlier_eq_mergeSlotSpec (ext cur : Option Meeting) :
    replaceIfEarlier ext cur = mergeSlotSpec ext cur := by
  cases ext <;> cases cur <;>
    simp [replaceIfEarlier, mergeSlotSpec, extBeatsLocal]

/-- C5: for every meeting (with the data model's assumed invariant
`start_time ≤ end_time`) and every instant, exactly one status holds:
Upcoming iff `now < start`, InProgress iff `start ≤ now ≤ end` with both
boundaries inclusive, Ended iff `now > end`. -/
theorem c5_status_trichotomy (m : Meeting) (now : Int)
    (h : m.start_time ≤ m.end_time) :
    (m.status now = .Upcoming ↔ now < m.start_time) ∧
    (m.status now = .InProgress ↔ (m.start_time ≤ now ∧ now ≤ m.end_time)) ∧
    (m.status now = .Ended ↔ m.end_time < now) := by
  unfold Meeting.status
  split_ifs with h1 h2 <;>
    refine ⟨?_, ?_, ?_⟩ <;> simp <;> omega

theorem c5_status_trichotomy_witness :
    ((Meeting.new "A" 0 10).status 5 = .InProgress ↔
      ((0 : Int) ≤ 5 ∧ (5 : Int) ≤ 10)) :=
  (c5_status_trichotomy (Meeting.new "A" 0 10) 5 (by decide)).2.1

/-- C6: the current/next merge in `handle_socket` / `get_meetings` replaces a
local slot with the external (Google) candidate exactly when a candidate
exists and the local slot is empty or the candidate starts strictly earlier;
equal starts keep the local meeting, and a slot with no candidate is
unchanged — i.e. the code's merge coincides with the spec-worded rule. -/
theorem c6_source_merge (cur next : Option Meeting) (google : List Meeting)
    (now : Int) :
    mergeCurrentNext cur next google now =
      (mergeSlotSpec (google.find? (fun m => m.is_active now)) cur,
       mergeSlotSpec (google.find? (fun m => m.is_upcoming now)) next) := by
  unfold mergeCurrentNext
  cases hg : google with
  | nil => simp [mergeSlotSpec, extBeatsLocal]
  | cons a l => simp [replaceIfEarlier_eq_mergeSlotSpec]

/-- C8: a bracket-titled time block is never the current or the next
meeting, and is in the active-time-blocks result exactly when its status is
InProgress. -/
theorem c8_time_block_filtering (meetings : List Meeting) (now : Int)
    (m : Meeting) (hm : m ∈ meetings) (htb : m.is_time_block = true) :
    (getCurrentAndNextMeetings meetings now).1 ≠ some m ∧
    (getCurrentAndNextMeetings meetings now).2 ≠ some m ∧
    (m ∈ getActiveTimeBlocks meetings now ↔ m.status now = .InProgress) := by
  refine ⟨?_, ?_, ?_⟩
  · intro hfind
    have hmem := List.mem_of_find?_eq_some hfind
    rw [List.mem_filter] at hmem
    simp [htb] at hmem
  · intro hfind
    have hmem := List.mem_of_find?_eq_some hfind
    rw [List.mem_filter] at hmem
    simp [htb] at hmem
  · unfold getActiveTimeBlocks
    rw [List.mem_filter]
    simp [hm, htb, Meeting.is_active]

/-- C9: every list a refresh cycle produces is sorted ascending by
`start_time`, and the current/next queries are positional first-match
searches (`find?`) over that list with time blocks removed, so sort order
decides ties among same-start meetings. -/
theorem c9_refresh_sorted_positional (sources : List IcsSource) (today now : Int) :
    List.Pairwise (fun a b : Meeting => a.start_time ≤ b.start_time)
      (parseMultipleIcsFilesExtended sources today) ∧
    (getCurrentAndNextMeetings (parseMultipleIcsFilesExtended sources today) now).1 =
      ((parseMultipleIcsFilesExtended sources today).filter
        (fun m => !m.is_time_block)).find? (fun m => m.is_active now) ∧
    (getCurrentAndNextMeetings (parseMultipleIcsFilesExtended sources today) now).2 =
      ((parseMultipleIcsFilesExtended sources today).filter
        (fun m => !m.is_time_block)).find? (fun m => m.is_upcoming now) := by
  refine ⟨?_, rfl, rfl⟩
  have htrans : ∀ a b c : Meeting, meetingLe a b → meetingLe b c → meetingLe a c := by
    intro a b c hab hbc
    simp only [meetingLe, decide_eq_true_eq] at *
    omega
  have htotal : ∀ a b : Meeting, meetingLe a b || meetingLe b a := by
    intro a b
    simp only [meetingLe, Bool.or_eq_true, decide_eq_true_eq]
    omega
  have h := @List.sorted_mergeSort Meeting meetingLe htrans htotal
  unfold parseMultipleIcsFilesExtended sortByStart
  refine List.Pairwise.imp ?_ (h _)
  intro a b hab
  simpa [meetingLe] using hab

theorem c8_time_block_filtering_witness :
    (getCurrentAndNextMeetings [focusBlock] 5).1 ≠ some focusBlock ∧
    (getCurrentAndNextMeetings [focusBlock] 5).2 ≠ some focusBlock ∧
    (focusBlock ∈ getActiveTimeBlocks [focusBlock] 5 ↔
      focusBlock.status 5 = .InProgress) :=
  c8_time_block_filtering [focusBlock] 5 focusBlock (by decide) (by decide)

/-- C4: with configured sources and TTL 300, a query younger than the TTL
serves the cached snapshot with no state change; a query at age ≥ TTL (or
with no recorded fetch) refreshes and stores the new snapshot — empty or
not — with the query time as the new fetch time. -/
theorem c4_cache_ttl (svc : CalendarService) (now today : Int)
    (hsrc : svc.ics_sources ≠ []) (httl : svc.cache_duration_secs = 300) :
    (∀ ms T, svc.cached_meetings = some ms → svc.last_fetch_time = some T →
      T ≤ now → now - T < 300 →
      getMeetingsForTodayAndTomorrow svc now today = (ms, svc)) ∧
    (∀ T, svc.last_fetch_time = some T → 300 ≤ now - T →
      getMeetingsForTodayAndTomorrow svc now today =
        (parseMultipleIcsFilesExtended svc.ics_sources today,
         { svc with
            cached_meetings := some (parseMultipleIcsFilesExtended svc.ics_sources today)
            last_fetch_time := some now })) ∧
    (svc.last_fetch_time = none →
      getMeetingsForTodayAndTomorrow svc now today =
        (parseMultipleIcsFilesExtended svc.ics_sources today,
         { svc with
            cached_meetings := some (parseMultipleIcsFilesExtended svc.ics_sources today)
            last_fetch_time := some now })) := by
  have hne : svc.ics_sources.isEmpty = false := by
    simpa [List.isEmpty_iff] using hsrc
  refine ⟨?_, ?_, ?_⟩
  · intro ms T hc hl hTn hfresh
    have hv : cacheValid svc now = true := by
      unfold cacheValid
      rw [hl]
      show (if T ≤ now then decide (now - T < svc.cache_duration_secs) else false) = true
      rw [if_pos hTn, httl]
      simpa using hfresh
    simp [getMeetingsForTodayAndTomorrow, hne, hv, hc]
  · intro T hl hstale
    have hv : cacheValid svc now = false := by
      unfold cacheValid
      rw [hl]
      show (if T ≤ now then decide (now - T < svc.cache_duration_secs) else false) = false
      rw [if_pos (show T ≤ now by omega), httl]
      simp only [decide_eq_false_iff_not]
      omega
    simp [getMeetingsForTodayAndTomorrow, hne, hv]
  · intro hl
    have hv : cacheValid svc now = false := by
      unfold cacheValid
      rw [hl]
    simp [getMeetingsForTodayAndTomorrow, hne, hv]


theorem c4_cache_ttl_witness :
    getMeetingsForTodayAndTomorrow svcWarm 1299 0 = ([Meeting.new "M" 0 10], svcWarm) ∧
    getMeetingsForTodayAndTomorrow svcWarm 1301 0 =
      ([], { svcWarm with cached_meetings := some [], last_fetch_time := some 1301 }) := by
  constructor
  · exact (c4_cache_ttl svcWarm 1299 0 (List.cons_ne_nil _ _) rfl).1
      [Meeting.new "M" 0 10] 1000 rfl rfl (by omega) (by omega)
  · have h := (c4_cache_ttl svcWarm 1301 0 (List.cons_ne_nil _ _) rfl).2.1
      1000 rfl (by omega)
    have hempty : parseMultipleIcsFilesExtended svcWarm.ics_sources 0 = [] := by
      simp [svcWarm, parseMultipleIcsFilesExtended, parseIcsFileExtended, sortByStart,
        List.mapM, List.mapM.loop, bind, Except.bind, pure, Except.pure]
    rw [hempty] at h
    exact h

lemma mockStandup_status (now : Int) : (mockStandup now).status now = .InProgress :=
  status_eq_inProgress_of _ _ (show now - 5 * 60 ≤ now by omega)
    (show now ≤ now + 25 * 60 by omega)

lemma mockReview_status (now : Int) : (mockReview now).status now = .Upcoming :=
  status_eq_upcoming_of _ _ (show now < now + 30 * 60 by omega)

lemma mockCall_status (now : Int) : (mockCall now).status now = .Upcoming :=
  status_eq_upcoming_of _ _ (show now < now + 3 * 3600 by omega)

/-- C10: with no configured sources the query bypasses the cache entirely
(state unchanged, result independent of the cache fields) and returns the
three freshly built mock meetings — one InProgress, two Upcoming — never an
empty list. -/
theorem c10_mock_fallback (svc : CalendarService) (now today : Int)
    (h : svc.ics_sources = []) :
    getMeetingsForTodayAndTomorrow svc now today = (getMockMeetings now, svc) ∧
    (getMockMeetings now).length = 3 ∧
    (getMockMeetings now).countP (fun m => m.status now == MeetingStatus.InProgress) = 1 ∧
    (getMockMeetings now).countP (fun m => m.status now == MeetingStatus.Upcoming) = 2 := by
  have hperm : List.Perm (getMockMeetings now)
      [mockStandup now, mockReview now, mockCall now] :=
    List.mergeSort_perm _ meetingLe
  refine ⟨?_, ?_, ?_, ?_⟩
  · simp [getMeetingsForTodayAndTomorrow, h]
  · simpa using hperm.length_eq
  · rw [List.Perm.countP_eq _ hperm]
    simp [List.countP_cons, mockStandup_status, mockReview_status, mockCall_status]
  · rw [List.Perm.countP_eq _ hperm]
    simp [List.countP_cons, mockStandup_status, mockReview_status, mockCall_status]

theorem c10_mock_fallback_witness :
    getMeetingsForTodayAndTomorrow svcNoSources 1000 0 = (getMockMeetings 1000, svcNoSources) ∧
    (getMockMeetings 1000).length = 3 ∧
    (getMockMeetings 1000).countP (fun m => m.status 1000 == MeetingStatus.InProgress) = 1 ∧
    (getMockMeetings 1000).countP (fun m => m.status 1000 == MeetingStatus.Upcoming) = 2 :=
  c10_mock_fallback svcNoSources 1000 0 rfl

unseal List.merge List.mergeSort in
/-- C1 (code bug): the refresh path of
`get_meetings_for_today_and_tomorrow` goes through
`parse_multiple_ics_files_extended`, which sorts but never deduplicates —
two same-title/same-start meetings with end times 11:00Z < 12:00Z both
survive into the stored snapshot, although the in-source comment announces
duplicate removal and the dedup loop exists only in the never-called
`parse_multiple_ics_files`. -/
theorem c1_refresh_keeps_duplicates :
    parseMultipleIcsFilesExtended
        [Except.ok [standupEvent "20240115T110000Z"],
         Except.ok [standupEvent "20240115T120000Z"]]
        (daysFromCivil 2024 1 15) =
      [Meeting.new "Standup" 1705312800 1705316400,
       Meeting.new "Standup" 1705312800 1705320000] := by
  decide

/-- The dead-code dedup loop, had it been run on the refresh path, would
keep exactly the later-end record of the same-title/same-start duplicate
pair that the refresh path stores twice. -/
lemma dedup_would_keep_later_end :
    dedupMeetings [Meeting.new "Standup" 1705312800 1705316400,
                   Meeting.new "Standup" 1705312800 1705320000] =
      [Meeting.new "Standup" 1705312800 1705320000] := by
  decide

/-- C2 (code bug): for `UNTIL=20250620` (a Friday) with `today` equal to the
UNTIL date itself and the weekday matching `BYDAY=FR`, the expansion still
returns the empty list: the guard `today > until || tomorrow > until` fires
because tomorrow is past the UNTIL date, so the inclusive upper bound the
rule promises for `today` is not honoured. -/
theorem c2_until_boundary_skipped :
    parseRruleUntil "FREQ=WEEKLY;UNTIL=20250620;BYDAY=FR" =
      some (daysFromCivil 2025 6 20) ∧
    shouldOccurOnDay "FREQ=WEEKLY;UNTIL=20250620;BYDAY=FR" (daysFromCivil 2025 6 20)
        (weekdayOf (dateOf (daysFromCivil 2025 6 13 * 86400 + 32400))) = true ∧
    expandRecurringEvent "Weekly Sync" (daysFromCivil 2025 6 13 * 86400 + 32400)
        (daysFromCivil 2025 6 13 * 86400 + 36000) "FREQ=WEEKLY;UNTIL=20250620;BYDAY=FR"
        (daysFromCivil 2025 6 20) none none = [] := by
  refine ⟨by decide, by decide, by decide⟩

/-- C3 counterexample: a malformed timestamp that happens to end in `Z`
(`"invalidZ"`) makes `parse_ical_datetime` return an error rather than null,
and that error propagates through `convert_ical_event_to_meeting` and the
per-feed event loop, aborting the parse of the entire feed — including the
well-formed second event. -/
theorem c3_counterexample_z_suffix_error :
    parseIcalDatetime "invalidZ" = .error () ∧
    parseIcsFileExtended
        [[⟨"SUMMARY", some "Bad"⟩, ⟨"DTSTART", some "invalidZ"⟩,
          ⟨"DTEND", some "20240115T110000Z"⟩],
         standupEvent "20240115T110000Z"]
        (daysFromCivil 2024 1 15) = .error () :=
  ⟨rfl, rfl⟩

/-- C3 (amended): a malformed timestamp that does not end in `Z` (and so
matches neither of the two non-UTC forms) parses to null rather than an
error, and an event carrying it as `DTSTART` is skipped (empty result, no
error), leaving the rest of the feed unaffected. -/
theorem c3_non_z_malformed_yields_null (s : String) (today : Int)
    (hz : s.data.getLast? ≠ some 'Z')
    (hlocal : parseDateTimeFmt false s.data = none)
    (hdate : parseDateOnly s.data = none) :
    parseIcalDatetime s = .ok none ∧
    convertIcalEventToMeeting
        [⟨"SUMMARY", some "Event"⟩, ⟨"DTSTART", some s⟩,
         ⟨"DTEND", some "20240115T110000Z"⟩] today = .ok [] := by
  have hzb : (s.data.getLast? == some 'Z') = false := by
    simpa using hz
  have hp : parseIcalDatetime s = .ok none := by
    simp [parseIcalDatetime, hzb, hlocal, hdate]
  have hdtend : parseIcalDatetime "20240115T110000Z" = .ok (some 1705316400) := rfl
  refine ⟨hp, ?_⟩
  have h1 : List.foldlM applyProperty ({} : EventFields)
      [⟨"SUMMARY", some "Event"⟩, ⟨"DTSTART", some s⟩,
       ⟨"DTEND", some "20240115T110000Z"⟩] =
      .ok { title := "Event", end_time := some 1705316400 } := by
    simp [List.foldlM, applyProperty, hp, hdtend, bind, Except.bind, pure, Except.pure]
  simp [convertIcalEventToMeeting, h1, bind, Except.bind]

theorem c3_non_z_malformed_witness :
    parseIcalDatetime "not-a-date" = .ok none ∧
    convertIcalEventToMeeting
        [⟨"SUMMARY", some "Event"⟩, ⟨"DTSTART", some "not-a-date"⟩,
         ⟨"DTEND", some "20240115T110000Z"⟩] 0 = .ok [] :=
  c3_non_z_malformed_yields_null "not-a-date" 0 (by decide) (by decide) (by decide)

/-- C7 counterexample: a weekly anchor spanning two midnights (day 0,
10:00 → day 2, 11:00, duration 176400 s) reprojected onto day 7 gets end
pushed only one day, producing a 90000 s occurrence: the original duration
is not preserved. -/
theorem c7_counterexample_two_day_span :
    expandRecurringEvent "Long" 36000 212400 "FREQ=WEEKLY" 7 none none =
      [Meeting.new "Long" 640800 730800] ∧
    ¬ ((730800 : Int) - 640800 = (212400 : Int) - 36000) :=
  ⟨rfl, by decide⟩

/-- The occurrence endpoints written out with `/` and `%`. -/
lemma reproject_eq (s e target : Int) :
    reprojectOccurrence s e target =
      (target * 86400 + s % 86400,
       target * 86400 + e % 86400 + (if s / 86400 = e / 86400 then 0 else 86400)) := by
  simp only [reprojectOccurrence, adjustTimeToDate, timeOfDay_eq, dateOf_eq_ediv]
  split_ifs with h1 h2 <;> simp_all

/-- C7 (amended): for anchors spanning at most one midnight (end date equal
to start date or one day later), the reprojected occurrence keeps the
wall-clock time-of-day of both endpoints, starts on the target date,
lands the end one day past the naive same-date end whenever the anchor
crossed midnight, and preserves the anchor's duration exactly.  (Anchors
spanning two or more midnights lose the extra days, as the counterexample
shows.) -/
theorem c7_reprojection_single_midnight (s e target : Int)
    (h : dateOf e = dateOf s ∨ dateOf e = dateOf s + 1) :
    dateOf (reprojectOccurrence s e target).1 = target ∧
    timeOfDay (reprojectOccurrence s e target).1 = timeOfDay s ∧
    timeOfDay (reprojectOccurrence s e target).2 = timeOfDay e ∧
    (dateOf s ≠ dateOf e →
      (reprojectOccurrence s e target).2 = adjustTimeToDate e target + 86400) ∧
    (reprojectOccurrence s e target).2 - (reprojectOccurrence s e target).1 = e - s := by
  rw [dateOf_eq_ediv, dateOf_eq_ediv] at h
  refine ⟨?_, ?_, ?_, ?_, ?_⟩
  · rw [reproject_eq]
    simp only [dateOf_eq_ediv]
    omega
  · rw [reproject_eq]
    simp only [timeOfDay_eq]
    omega
  · rw [reproject_eq]
    simp only [timeOfDay_eq]
    split_ifs with hde <;> omega
  · intro hne
    rw [dateOf_eq_ediv, dateOf_eq_ediv] at hne
    rw [reproject_eq]
    simp only [adjustTimeToDate, timeOfDay_eq]
    rw [if_neg hne]
  · rw [reproject_eq]
    rcases h with h | h <;> split_ifs with hde <;> omega

theorem c7_reprojection_witness :
    (reprojectOccurrence 79200 115200 7).2 - (reprojectOccurrence 79200 115200 7).1 =
      115200 - 79200 :=
  (c7_reprojection_single_midnight 79200 115200 7 (Or.inr (by decide))).2.2.2.2

end CalendarMonitor
